import Mathlib

/-
Verification of the lacia log-tailing incident detector.

The detector pipeline lives in the Go sources: the Watcher (tailer +
trace reassembler, with the line classifier predicates and the rolling
line buffer), the synthetic log injector, and the CLI delivery client
with its duplicate suppressor.  This file embeds those components
shallowly: strings are Lean Strings (all relevant inputs are ASCII),
wall-clock time is an abstract Nat of milliseconds, machine words in
the hash are Nats reduced mod 2^32, and the Watch loop is modelled as
a step function on the watcher state driven by arriving lines, with
the EOF-timeout branch modelled as an explicit flush event.
-/

namespace Lacia

/-! ### ASCII string helpers (models of the Go strings package functions used) -/

/-- Model of unicode.IsSpace restricted to the code points Go treats as
whitespace in Latin-1 (tab, newline, vertical tab, form feed, carriage
return, space, NEL, NBSP); all log input here is ASCII. -/
def isSpaceChar (c : Char) : Bool :=
  c = ' ' || c = '\t' || c = '\n' || c = '\x0b' || c = '\x0c' || c = '\r' ||
  c = '\x85' || c = '\xa0'

/-- Uppercasing of a single character, agreeing with Go strings.ToUpper on
ASCII (the only characters occurring in the patterns and inputs). -/
def toUpperChar (c : Char) : Char :=
  if 97 ≤ c.toNat ∧ c.toNat ≤ 122 then Char.ofNat (c.toNat - 32) else c

/-- Model of strings.HasPrefix: the first list is the prefix pattern. -/
def listHasPrefix : List Char → List Char → Bool
  | [], _ => true
  | _ :: _, [] => false
  | p :: ps, c :: cs => p = c && listHasPrefix ps cs

/-- Helper for substring search: does the pattern occur at some suffix start? -/
def listContainsAux (pat : List Char) : List Char → Bool
  | [] => listHasPrefix pat []
  | c :: cs => listHasPrefix pat (c :: cs) || listContainsAux pat cs

/-- Model of strings.Contains s pat. -/
def strContains (s pat : String) : Bool :=
  listContainsAux pat.data s.data

/-- Model of strings.HasPrefix s pat. -/
def strHasPrefix (s pat : String) : Bool :=
  listHasPrefix pat.data s.data

/-- Model of strings.ToUpper (ASCII). -/
def toUpperStr (s : String) : String :=
  ⟨s.data.map toUpperChar⟩

/-- Drop trailing whitespace characters from a character list. -/
def rdropSpace : List Char → List Char
  | [] => []
  | c :: cs =>
    match rdropSpace cs with
    | [] => if isSpaceChar c then [] else [c]
    | r => c :: r

/-- Model of strings.TrimSpace: drop leading and trailing whitespace. -/
def trimSpace (s : String) : String :=
  ⟨rdropSpace (s.data.dropWhile (fun c => isSpaceChar c))⟩

/-! ### Line classifier (part_002: errorPatterns, traceStartMarkers, traceContMarkers) -/

/-- The errorPatterns table of the watcher source, verbatim. -/
def errorPatterns : List String :=
  ["ERROR", "FATAL", "CRITICAL", "SEVERE", "EMERGENCY",
   "Exception", "panic", "Traceback", "Uncaught",
   "Caused by:", "Stack trace:", "Stacktrace:",
   "at com.", "at org.", "at java.", "at sun.",
   "goroutine", "runtime error:",
   "raise ", "AssertionError", "AttributeError", "ImportError",
   "KeyError", "ValueError", "IndentationError",
   "TypeError", "ReferenceError", "SyntaxError", "RangeError",
   "UnhandledPromiseRejection", "ECONNREFUSED", "ENOTFOUND",
   "NullPointerException", "ClassNotFoundException",
   "OutOfMemoryError", "StackOverflowError",
   "RuntimeError", "NoMethodError", "undefined method",
   "thread 'main' panicked", "thread 'tokio' panicked",
   "Fatal error:", "Parse error:", "Warning:",
   "Unhandled exception", "System.Exception", "System.NullReferenceException",
   "Segmentation fault", "core dumped", "SIGSEGV", "SIGABRT",
   "killed", "OOM",
   "500 Internal Server Error", "502 Bad Gateway",
   "503 Service Unavailable", "504 Gateway Timeout",
   "deadlock", "connection refused", "connection timed out"]

/-- The traceStartMarkers table of the watcher source, verbatim. -/
def traceStartMarkers : List String :=
  ["Traceback", "Exception in thread", "goroutine",
   "panic:", "Error:", "ERROR:", "FATAL:",
   "Caused by:", "Stack trace:", "Stacktrace:",
   "Unhandled", "Thread", "Process"]

/-- The traceContMarkers table of the watcher source, verbatim. -/
def traceContMarkers : List String :=
  ["at ", "    at ", "\tat ",
   "File \"", "  File \"",
   "    ", "\t",
   "^",
   "..."]

/-- isErrorLine from the watcher source: case-insensitive substring match
against every entry of errorPatterns. -/
def isErrorLine (line : String) : Bool :=
  errorPatterns.any (fun pattern => strContains (toUpperStr line) (toUpperStr pattern))

/-- isTraceStart from the watcher source: case-sensitive substring match
against traceStartMarkers. -/
def isTraceStart (line : String) : Bool :=
  traceStartMarkers.any (fun marker => strContains line marker)

/-- isTraceContinuation from the watcher source: a prefix match against
traceContMarkers, or isErrorLine. -/
def isTraceContinuation (line : String) : Bool :=
  traceContMarkers.any (fun marker => strHasPrefix line marker) || isErrorLine line

example : isErrorLine "ZeroDivisionError: division by zero" = true := by decide
example : isErrorLine "[INFO] Health check passed" = false := by decide
example : isTraceStart "[DEBUG] Processing calculation request..." = true := by decide
example : isTraceContinuation "File \"python/app.py\", line 45, in calculate" = true := by decide
example : isTraceContinuation "result = divide(numerator, denominator)" = false := by decide
example : trimSpace "    result = divide(a, b)  " = "result = divide(a, b)" := by decide

/-! ### Watcher state machine (part_002: Watcher, Watch, startTrace, findTraceStart,
emitTrace, pushToBuffer)

The Go LogEvent carries a wall-clock Timestamp; it is real time and plays no
role in any property here, so the embedded event keeps only the line and the
context.  The trace timeout is likewise real time: arriving lines either reset
it (continuation) or force an emission, and the EOF branch that fires it is
modelled by the explicit flushTimeout event. -/

/-- The emitted event (Go LogEvent without the wall-clock timestamp). -/
structure LogEvent where
  line : String
  context : List String
deriving DecidableEq, Repr

/-- bufferSize field of the watcher (NewWatcher sets 50). -/
def bufferSize : Nat := 50

/-- The mutable watcher state driven by the Watch loop. -/
structure WatcherState where
  lineBuffer : List String
  collectingTrace : Bool
  traceLines : List String
deriving DecidableEq, Repr

/-- NewWatcher: empty buffer, not collecting. -/
def initialWatcher : WatcherState := ⟨[], false, []⟩

/-- pushToBuffer: drop the head when at capacity, then append. -/
def pushToBuffer (buf : List String) (line : String) : List String :=
  (if bufferSize ≤ buf.length then buf.drop 1 else buf) ++ [line]

/-- The backward scan loop inside findTraceStart: index i counts down from
len-1; a trace-start match returns its index; the loop breaks (without
checking further indices) once i has gone below len-10. -/
def scanBack (buf : List String) : Nat → Option Nat
  | 0 => if isTraceStart (buf.getD 0 "") then some 0 else none
  | i + 1 =>
    if isTraceStart (buf.getD (i + 1) "") then some (i + 1)
    else if i + 11 < buf.length then none
    else scanBack buf i

/-- findTraceStart: run the backward scan; fall back to len-10 clamped at 0
(Nat subtraction performs the clamp). -/
def findTraceStart (buf : List String) : Nat :=
  let scanned : Option Nat :=
    match buf.length with
    | 0 => none
    | n + 1 => scanBack buf n
  match scanned with
  | some i => i
  | none => buf.length - 10

/-- startTrace: seed the accumulator with the buffer tail from the start
index (the trigger line is already in the buffer) and enter Collecting. -/
def startTrace (w : WatcherState) : WatcherState :=
  { w with
    traceLines := w.lineBuffer.drop (findTraceStart w.lineBuffer),
    collectingTrace := true }

/-- emitTrace: emit nothing when the accumulator is empty; otherwise emit an
event whose line is the last accumulated line and whose context is the whole
accumulator; clear the accumulator and leave Collecting. -/
def emitTrace (w : WatcherState) : WatcherState × List LogEvent :=
  match w.traceLines with
  | [] => ({ w with collectingTrace := false }, [])
  | c :: cs =>
    ({ w with traceLines := [], collectingTrace := false },
     [{ line := (c :: cs).getLastD "", context := c :: cs }])

/-- The body of the Watch loop for one arriving trimmed, non-empty line:
push to the buffer; if collecting, append to the accumulator and either keep
collecting (continuation), emit (neither continuation nor error), or do
nothing more (error but not continuation — unreachable, see the C9 theorem);
if idle, start a trace on an error line. -/
def processLine (w : WatcherState) (line : String) : WatcherState × List LogEvent :=
  let w1 := { w with lineBuffer := pushToBuffer w.lineBuffer line }
  if w1.collectingTrace then
    let w2 := { w1 with traceLines := w1.traceLines ++ [line] }
    if isTraceContinuation line then (w2, [])
    else if !isErrorLine line then emitTrace w2
    else (w2, [])
  else if isErrorLine line then (startTrace w1, [])
  else (w1, [])

/-- One raw line as read from the file: trim, skip if empty, else process. -/
def processRawLine (w : WatcherState) (raw : String) : WatcherState × List LogEvent :=
  let line := trimSpace raw
  if line = "" then (w, []) else processLine w line

/-- Run the Watch loop over a list of raw lines, concatenating emissions. -/
def runLines (w : WatcherState) : List String → WatcherState × List LogEvent
  | [] => (w, [])
  | raw :: rest =>
    let step := processRawLine w raw
    let tail := runLines step.1 rest
    (tail.1, step.2 ++ tail.2)

/-- The EOF branch of the Watch loop once the trace timeout has elapsed. -/
def flushTimeout (w : WatcherState) : WatcherState × List LogEvent :=
  if w.collectingTrace then emitTrace w else (w, [])

/-- A whole quiescent run: process every line (lines arrive faster than the
300 ms trace timeout, as the injector spaces them 50-100 ms apart), then let
the timeout fire once at EOF. -/
def runWatcher (lines : List String) : WatcherState × List LogEvent :=
  let run := runLines initialWatcher lines
  let flush := flushTimeout run.1
  (flush.1, run.2 ++ flush.2)

example :
    (runWatcher ["ZeroDivisionError: division by zero"]).2 =
      [{ line := "ZeroDivisionError: division by zero",
         context := ["ZeroDivisionError: division by zero"] }] := by decide

/-! ### The S1 scenario stream (part_000: the Python template of errorTemplates) -/

/-- The seven NormalLogs lines of the Python error template. -/
def s1NormalLines : List String :=
  ["[INFO] Flask app starting on port 5000...",
   "[INFO] Loading configuration from config.yaml",
   "[INFO] Database connection established",
   "[INFO] Registering routes...",
   "[INFO] Route /api/calculate registered",
   "[DEBUG] Request received: GET /api/calculate",
   "[DEBUG] Processing calculation request..."]

/-- The seven Traceback lines of the Python error template, verbatim
(including the leading indentation of the frame lines). -/
def s1TracebackLines : List String :=
  ["ERROR in app: Exception on /api/calculate [GET]",
   "Traceback (most recent call last):",
   "  File \"python/app.py\", line 45, in calculate",
   "    result = divide(numerator, denominator)",
   "  File \"python/app.py\", line 12, in divide",
   "    return a / b",
   "ZeroDivisionError: division by zero"]

/-- The S1 input stream: seven normal lines then the seven traceback lines. -/
def s1Stream : List String := s1NormalLines ++ s1TracebackLines

/-! ### SHA-256 (crypto/sha256 as used by hashError in apps/cli/main.go)

Bytes and 32-bit words are Nats; word arithmetic is reduced mod 2^32
explicitly.  Only ASCII strings are hashed here, so the byte sequence of a
string is the list of its character code points. -/

/-- Reduce to a 32-bit word. -/
def w32 (x : Nat) : Nat := x % 4294967296

/-- Right rotation of a 32-bit word by n bits. -/
def rotr32 (n x : Nat) : Nat := w32 ((x >>> n) + ((x % 2 ^ n) <<< (32 - n)))

/-- The 64 SHA-256 round constants (FIPS 180-4, written in decimal). -/
def k256 : List Nat :=
  [1116352408, 1899447441, 3049323471, 3921009573, 961987163, 1508970993,
   2453635748, 2870763221, 3624381080, 310598401, 607225278, 1426881987,
   1925078388, 2162078206, 2614888103, 3248222580, 3835390401, 4022224774,
   264347078, 604807628, 770255983, 1249150122, 1555081692, 1996064986,
   2554220882, 2821834349, 2952996808, 3210313671, 3336571891, 3584528711,
   113926993, 338241895, 666307205, 773529912, 1294757372, 1396182291,
   1695183700, 1986661051, 2177026350, 2456956037, 2730485921, 2820302411,
   3259730800, 3345764771, 3516065817, 3600352804, 4094571909, 275423344,
   430227734, 506948616, 659060556, 883997877, 958139571, 1322822218,
   1537002063, 1747873779, 1955562222, 2024104815, 2227730452, 2361852424,
   2428436474, 2756734187, 3204031479, 3329325298]

/-- The SHA-256 initial hash state (FIPS 180-4, written in decimal). -/
def sha256init : List Nat :=
  [1779033703, 3144134277, 1013904242, 2773480762,
   1359893119, 2600822924, 528734635, 1541459225]

/-- A Nat as n big-endian bytes. -/
def toBytesBE : Nat → Nat → List Nat
  | 0, _ => []
  | n + 1, v => toBytesBE n (v / 256) ++ [v % 256]

/-- SHA-256 padding: append 0x80, zeros to 56 mod 64, then the bit length
as 8 big-endian bytes. -/
def sha256pad (msg : List Nat) : List Nat :=
  msg ++ [0x80] ++ List.replicate ((119 - msg.length % 64) % 64) 0 ++
    toBytesBE 8 (msg.length * 8)

/-- Group bytes into big-endian 32-bit words. -/
def bytesToWords : List Nat → List Nat
  | a :: b :: c :: d :: rest => (((a * 256 + b) * 256 + c) * 256 + d) :: bytesToWords rest
  | _ => []

/-- The next word of the message schedule, from the last 16 words. -/
def nextScheduleWord (ws : List Nat) : Nat :=
  let n := ws.length
  let x15 := ws.getD (n - 15) 0
  let x2 := ws.getD (n - 2) 0
  let s0 := (rotr32 7 x15) ^^^ (rotr32 18 x15) ^^^ (x15 >>> 3)
  let s1 := (rotr32 17 x2) ^^^ (rotr32 19 x2) ^^^ (x2 >>> 10)
  w32 (ws.getD (n - 16) 0 + s0 + ws.getD (n - 7) 0 + s1)

/-- Extend the 16-word schedule by t further words. -/
def extendSchedule : Nat → List Nat → List Nat
  | 0, ws => ws
  | t + 1, ws => extendSchedule t (ws ++ [nextScheduleWord ws])

/-- One round of the SHA-256 compression function. -/
def compressRound (ws : List Nat) (i : Nat) (st : List Nat) : List Nat :=
  match st with
  | [a, b, c, d, e, f, g, h] =>
    let s1 := (rotr32 6 e) ^^^ (rotr32 11 e) ^^^ (rotr32 25 e)
    let ch := (e &&& f) ^^^ ((e ^^^ 4294967295) &&& g)
    let t1 := w32 (h + s1 + ch + k256.getD i 0 + ws.getD i 0)
    let s0 := (rotr32 2 a) ^^^ (rotr32 13 a) ^^^ (rotr32 22 a)
    let mj := (a &&& b) ^^^ (a &&& c) ^^^ (b &&& c)
    let t2 := w32 (s0 + mj)
    [w32 (t1 + t2), a, b, c, w32 (d + t1), e, f, g]
  | other => other

/-- Process one 64-byte block into the running hash state. -/
def processBlock (hs block : List Nat) : List Nat :=
  let ws := extendSchedule 48 (bytesToWords block)
  let compressed := (List.range 64).foldl (fun st i => compressRound ws i st) hs
  List.zipWith (fun x y => w32 (x + y)) hs compressed

/-- Process all 64-byte blocks of a padded message (its length is a
multiple of 64 by construction). -/
def processBlocks (hs padded : List Nat) : List Nat :=
  (List.range (padded.length / 64)).foldl
    (fun st b => processBlock st ((padded.drop (64 * b)).take 64)) hs

/-- The SHA-256 digest of a byte sequence, as 32 bytes. -/
def sha256bytes (msg : List Nat) : List Nat :=
  ((processBlocks sha256init (sha256pad msg)).map (toBytesBE 4)).flatten

/-- A hex digit character (lowercase, as encoding/hex produces). -/
def hexDigit (n : Nat) : Char :=
  if n < 10 then Char.ofNat (48 + n) else Char.ofNat (87 + n)

/-- Model of hex.EncodeToString over a byte list. -/
def hexEncode (bytes : List Nat) : String :=
  ⟨(bytes.map (fun b => [hexDigit (b / 16), hexDigit (b % 16)])).flatten⟩

/-- The bytes of an ASCII string (Go converts a string to its UTF-8 bytes;
the two coincide on the ASCII inputs at hand). -/
def strBytes (s : String) : List Nat := s.data.map Char.toNat

set_option maxRecDepth 4096

example :
    hexEncode (sha256bytes (strBytes "abc")) =
      "ba7816bf8f01cfea414140de5dae2223b00361a396177a9cb410ff61f20015ad" := by decide

example :
    hexEncode (sha256bytes (strBytes "")) =
      "e3b0c44298fc1c149afbf4c8996fb92427ae41e4649b934ca495991b7852b855" := by decide

/-! ### Duplicate suppressor (apps/cli/main.go: hashError, isDuplicate, and the
delivery goroutine of main) -/

/-- hashError from the CLI source: hash the error line, and the first three
context lines only when there are more than three; first 8 digest bytes as
16 hex characters. -/
def hashError (event : LogEvent) : String :=
  let data :=
    if 3 < event.context.length then
      event.line ++ event.context.getD 0 "" ++ event.context.getD 1 "" ++ event.context.getD 2 ""
    else event.line
  hexEncode ((sha256bytes (strBytes data)).take 8)

/-- The hash the spec describes: errorLine concatenated with the first
min(3, len) context lines.  Modelled from the spec for comparison with
hashError; it is not the code's function. -/
def specHashError (event : LogEvent) : String :=
  hexEncode
    ((sha256bytes
      (strBytes ((event.context.take 3).foldl (fun acc c => acc ++ c) event.line))).take 8)

/-- The process-wide duplicate-suppressor pair (lastErrorHash, lastErrorTime);
time is wall-clock milliseconds. -/
structure SuppressorState where
  lastErrorHash : String
  lastErrorTime : Nat
deriving DecidableEq, Repr

/-- cooldownDuration = 30 s, in milliseconds. -/
def cooldownDuration : Nat := 30000

/-- isDuplicate from the CLI source: suppress iff same hash within the
cooldown; otherwise record the new hash and time.  The Go now.Sub on
monotone wall-clock times is Nat subtraction here. -/
def isDuplicate (st : SuppressorState) (now : Nat) (event : LogEvent) : Bool × SuppressorState :=
  let hash := hashError event
  if hash = st.lastErrorHash ∧ now - st.lastErrorTime < cooldownDuration then
    (true, st)
  else
    (false, { lastErrorHash := hash, lastErrorTime := now })

/-- One iteration of the delivery goroutine for one received event: run the
duplicate check (which owns every mutation of the suppressor pair); when not
a duplicate, POST the event — a failed Send (sendOk = false) is only logged.
Returns the suppressor state afterwards and whether a POST was attempted. -/
def deliverEvent (st : SuppressorState) (now : Nat) (event : LogEvent)
    (sendOk : Bool) : SuppressorState × Bool :=
  let dup := isDuplicate st now event
  if dup.1 then (dup.2, false)
  else
    -- client.Send runs here; its outcome sendOk is only written to stderr
    (dup.2, true)

/-! ### Injector line counts (part_000: runLogInjector) -/

/-- Model of rand.Intn n: an arbitrary draw reduced into the interval
from 0 to n-1, exactly the range rand.Intn returns. -/
def randIntn (n draw : Nat) : Nat := draw % n

/-- The count 25 plus rand.Intn(10) of generic lines appended on start,
before the first error burst. -/
def initialNormalLogCount (draw : Nat) : Nat := 25 + randIntn 10 draw

/-- The count 15 plus rand.Intn(10) of generic lines appended on each
30-minute cycle, before the burst. -/
def cycleNormalLogCount (draw : Nat) : Nat := 15 + randIntn 10 draw

/-! ### Declarative forms of the trace-start index (for claim C3) -/

/-- The start index the spec describes: the oldest index among the last 10
lines satisfying isTraceStart, else len minus 10 clamped at 0.  Modelled
from the spec for comparison with findTraceStart; it is not the code's
function. -/
def specFindTraceStart (buf : List String) : Nat :=
  let hits := (List.range buf.length).filter
    (fun i => decide (buf.length ≤ i + 10) && isTraceStart (buf.getD i ""))
  match hits.head? with
  | some i => i
  | none => buf.length - 10

/-- Index i of the buffer is a trace-start hit within the last 11 lines. -/
def startHit (buf : List String) (i : Nat) : Bool :=
  decide (buf.length ≤ i + 11) && isTraceStart (buf.getD i "")

/-- The start index the code computes, stated declaratively: the newest
index among the last 11 lines satisfying isTraceStart, else len minus 10
clamped at 0. -/
def newestStartIndex (buf : List String) : Nat :=
  match ((List.range buf.length).filter (startHit buf)).getLast? with
  | some i => i
  | none => buf.length - 10

/-! ### Helper lemmas -/

theorem not_errorLine_of_not_cont {line : String} (h : isTraceContinuation line = false) :
    isErrorLine line = false := by
  unfold isTraceContinuation at h
  exact (Bool.or_eq_false_iff.mp h).2

theorem getLastD_append_single (l : List String) (x d : String) :
    (l ++ [x]).getLastD d = x := by
  induction l generalizing d with
  | nil => rfl
  | cons a t ih => simpa [List.getLastD] using ih a

theorem emitTrace_of_append (buf : List String) (col : Bool) (l : List String) (x : String) :
    emitTrace ⟨buf, col, l ++ [x]⟩ =
      (⟨buf, false, []⟩, [{ line := x, context := l ++ [x] }]) := by
  cases l with
  | nil => rfl
  | cons c cs =>
    have h1 : ((c :: cs) ++ [x]).getLastD "" = x := getLastD_append_single (c :: cs) x ""
    rw [List.cons_append, List.getLastD_eq_getLast?] at h1
    simp [emitTrace, h1]

/-! ### Claim theorems -/

/-- C1 (counterexample): while collecting with accumulator containing one
error line, an arriving non-continuation line is pushed to the buffer AND
included in the emitted incident as its errorLine and last context element —
contradicting the claim that the terminating line is neither the errorLine
nor any context element and that the emission happens before the push. -/
theorem c1_counterexample :
    processLine ⟨["ERROR: boom"], true, ["ERROR: boom"]⟩ "[INFO] Health check passed" =
      (⟨["ERROR: boom", "[INFO] Health check passed"], false, []⟩,
       [{ line := "[INFO] Health check passed",
          context := ["ERROR: boom", "[INFO] Health check passed"] }]) := by decide

/-- C1 (amended): when a non-continuation line arrives while collecting, the
line is first pushed to the rolling buffer and appended to the trace
accumulator, and the incident is then emitted with that terminating line as
its errorLine and final context element. -/
theorem c1_amended (w : WatcherState) (line : String)
    (hcol : w.collectingTrace = true) (hcont : isTraceContinuation line = false) :
    processLine w line =
      ({ lineBuffer := pushToBuffer w.lineBuffer line, collectingTrace := false,
         traceLines := [] },
       [{ line := line, context := w.traceLines ++ [line] }]) := by
  obtain ⟨buf, col, tl⟩ := w
  simp only at hcol
  subst hcol
  unfold processLine
  simp only [hcont, not_errorLine_of_not_cont hcont, if_true, if_false,
    Bool.not_false, Bool.false_eq_true, ite_false, ite_true]
  exact emitTrace_of_append _ _ tl line

/-- C1 (amended) witness at a concrete collecting state and line. -/
theorem c1_amended_witness :
    processLine ⟨["FATAL: x"], true, ["FATAL: x"]⟩ "[INFO] ok" =
      ({ lineBuffer := pushToBuffer ["FATAL: x"] "[INFO] ok", collectingTrace := false,
         traceLines := [] },
       [{ line := "[INFO] ok", context := ["FATAL: x"] ++ ["[INFO] ok"] }]) :=
  c1_amended ⟨["FATAL: x"], true, ["FATAL: x"]⟩ "[INFO] ok" rfl (by decide)

/-- C2 (code bug, evaluation): on the S1 stream the watcher emits TWO
incidents, the first terminated early at the unindented-after-trim frame
line with errorLine equal to that frame line and only two traceback lines
in context, the second containing only the final error line — not the
single incident with all seven traceback lines that the claim expects. -/
theorem c2_s1_run :
    (runWatcher s1Stream).2 =
      [{ line := "result = divide(numerator, denominator)",
         context := ["[DEBUG] Processing calculation request...",
                     "ERROR in app: Exception on /api/calculate [GET]",
                     "Traceback (most recent call last):",
                     "File \"python/app.py\", line 45, in calculate",
                     "result = divide(numerator, denominator)"] },
       { line := "ZeroDivisionError: division by zero",
         context := ["ZeroDivisionError: division by zero"] }] := by decide

/-- C8: the injector appends 25 plus a draw below 10 generic lines on start
(hence between 25 and 35 inclusive) and 15 plus a draw below 10 on each
30-minute cycle (hence between 15 and 25 inclusive). -/
theorem c8_injector_generic_line_counts (draw1 draw2 : Nat) :
    (25 ≤ initialNormalLogCount draw1 ∧ initialNormalLogCount draw1 ≤ 35) ∧
    (15 ≤ cycleNormalLogCount draw2 ∧ cycleNormalLogCount draw2 ≤ 25) := by
  unfold initialNormalLogCount cycleNormalLogCount randIntn
  have h1 : draw1 % 10 < 10 := Nat.mod_lt _ (by decide)
  have h2 : draw2 % 10 < 10 := Nat.mod_lt _ (by decide)
  omega

/-- C9: isErrorLine implies isTraceContinuation (the continuation predicate
ends in an isErrorLine disjunct), so while collecting, an arriving error
line always continues the trace — it is appended, the state stays
collecting, and nothing is emitted; the emit-then-restart transition is
never taken on an error line. -/
theorem c9_error_lines_always_continue (line : String) (he : isErrorLine line = true) :
    isTraceContinuation line = true ∧
    ∀ w : WatcherState, w.collectingTrace = true →
      processLine w line =
        ({ lineBuffer := pushToBuffer w.lineBuffer line, collectingTrace := true,
           traceLines := w.traceLines ++ [line] }, []) := by
  have hc : isTraceContinuation line = true := by
    unfold isTraceContinuation
    rw [he, Bool.or_true]
  refine ⟨hc, fun w hw => ?_⟩
  obtain ⟨buf, col, tl⟩ := w
  simp only at hw
  subst hw
  unfold processLine
  simp [hc]

/-- C9 witness at a concrete error line and collecting state. -/
theorem c9_error_lines_always_continue_witness :
    isTraceContinuation "ERROR: boom" = true ∧
    processLine ⟨["ERROR: boom"], true, ["ERROR: boom"]⟩ "ERROR: boom" =
      ({ lineBuffer := pushToBuffer ["ERROR: boom"] "ERROR: boom", collectingTrace := true,
         traceLines := ["ERROR: boom"] ++ ["ERROR: boom"] }, []) :=
  have h := c9_error_lines_always_continue "ERROR: boom" (by decide)
  ⟨h.1, h.2 ⟨["ERROR: boom"], true, ["ERROR: boom"]⟩ rfl⟩

/-- C4 (counterexample): the single-line incident that the watcher itself
emits from a lone error line has one context line, so the code hashes only
the errorLine, while the claim's formula also concatenates the
min(3, len) = 1 context line; the two 16-hex-character hashes differ. -/
theorem c4_counterexample :
    (runWatcher ["ZeroDivisionError: division by zero"]).2 =
      [{ line := "ZeroDivisionError: division by zero",
         context := ["ZeroDivisionError: division by zero"] }] ∧
    hashError { line := "ZeroDivisionError: division by zero",
                context := ["ZeroDivisionError: division by zero"] } ≠
      specHashError { line := "ZeroDivisionError: division by zero",
                      context := ["ZeroDivisionError: division by zero"] } := by decide

/-- C4 (amended): the duplicate-suppression hash equals the first 8 bytes
(16 hex characters) of the SHA-256 of the errorLine concatenated with the
first three context lines when len(context) > 3, and of the errorLine alone
otherwise (the code concatenates context lines only when more than three
are present). -/
theorem c4_amended (e : LogEvent) :
    hashError e =
      (if 3 < e.context.length then specHashError e
       else hexEncode ((sha256bytes (strBytes e.line)).take 8)) := by
  obtain ⟨l, ctx⟩ := e
  unfold hashError specHashError
  match ctx with
  | [] => rfl
  | [c0] => rfl
  | [c0, c1] => rfl
  | [c0, c1, c2] => rfl
  | c0 :: c1 :: c2 :: c3 :: rest =>
    simp [List.getD]

/-- C5 (counterexample): an incident whose POST fails (sendOk = false) does
mutate the suppressor pair — the duplicate check records the new hash and
time before the POST is attempted. -/
theorem c5_counterexample :
    (deliverEvent ⟨"", 0⟩ 1000 { line := "ERROR: boom", context := ["ERROR: boom"] } false).2
        = true ∧
    (deliverEvent ⟨"", 0⟩ 1000 { line := "ERROR: boom", context := ["ERROR: boom"] } false).1
        ≠ ⟨"", 0⟩ := by decide

/-- C5 (amended): the delivery outcome never affects the suppressor pair:
for any incident the state after processing equals the state left by the
duplicate check, identically for a successful and a failed POST. -/
theorem c5_amended (st : SuppressorState) (now : Nat) (event : LogEvent) (r1 r2 : Bool) :
    (deliverEvent st now event r1).1 = (deliverEvent st now event r2).1 ∧
    (deliverEvent st now event r1).1 = (isDuplicate st now event).2 := by
  unfold deliverEvent
  by_cases h : (isDuplicate st now event).1 <;> simp [h]

/-- The backward scan of findTraceStart, characterized declaratively: from
index i (scanning down, with the whole window from len-11 still ahead), it
returns the largest trace-start hit index at most i, none when there is no
hit. -/
theorem scanBack_eq (buf : List String) :
    ∀ i, buf.length ≤ i + 11 →
      scanBack buf i = ((List.range (i + 1)).filter (startHit buf)).getLast? := by
  intro i
  induction i with
  | zero =>
    intro h
    have hd : startHit buf 0 = isTraceStart (buf.getD 0 "") := by
      simp only [startHit, Bool.and_eq_true, decide_eq_true_eq]
      by_cases hs : isTraceStart (buf.getD 0 "") <;> simp [hs, h]
    have hs2 : buf.getD 0 "" = buf[0]?.getD "" := List.getD_eq_getElem?_getD buf 0 ""
    by_cases hs : isTraceStart (buf.getD 0 "")
    · rw [hs2] at hs
      simp [scanBack, hs, List.filter, hd, hs2]
    · rw [hs2] at hs
      simp [scanBack, hs, List.filter, hd, hs2]
  | succ i ih =>
    intro h
    have hgd : buf.getD (i + 1) "" = buf[i + 1]?.getD "" :=
      List.getD_eq_getElem?_getD buf (i + 1) ""
    by_cases hs : isTraceStart (buf.getD (i + 1) "")
    · have hhit : startHit buf (i + 1) = true := by
        simp only [startHit, Bool.and_eq_true, decide_eq_true_eq]
        exact ⟨by omega, hs⟩
      rw [hgd] at hs
      rw [List.range_succ, List.filter_append]
      simp [scanBack, hs, List.filter, hhit]
    · rw [hgd] at hs
      have hmiss : startHit buf (i + 1) = false := by
        simp only [startHit, hgd]
        simp [hs]
      have hs2 : isTraceStart (buf[i + 1]?.getD "") = false := by
        simp [hs]
      rw [List.range_succ, List.filter_append]
      simp only [List.filter, hmiss, List.append_nil]
      by_cases hlt : i + 11 < buf.length
      · have hnone : (List.range (i + 1)).filter (startHit buf) = [] := by
          rw [List.filter_eq_nil_iff]
          intro j hj
          have hj2 : j < i + 1 := List.mem_range.mp hj
          simp only [startHit, Bool.and_eq_true, decide_eq_true_eq, not_and]
          intro hc
          omega
        simp [scanBack, hs2, hlt, hnone]
      · have hle : buf.length ≤ i + 11 := by omega
        rw [← ih hle]
        simp [scanBack, hs2, hlt]

/-- C3 (counterexample): with two trace-start lines in a three-line buffer,
the code's findTraceStart picks the NEWEST hit (index 1), while the claim's
oldest-hit rule picks index 0. -/
theorem c3_counterexample :
    findTraceStart ["panic: first", "panic: second", "plain line"] = 1 ∧
    specFindTraceStart ["panic: first", "panic: second", "plain line"] = 0 ∧
    findTraceStart ["panic: first", "panic: second", "plain line"] ≠
      specFindTraceStart ["panic: first", "panic: second", "plain line"] := by decide

/-- C3 (amended): the chosen start index is the NEWEST index among the last
min(len, 11) buffer lines satisfying isTraceStart (the scan checks the
index len-11 before breaking), and max(0, len - 10) when no such index
exists. -/
theorem c3_amended (buf : List String) : findTraceStart buf = newestStartIndex buf := by
  cases buf with
  | nil => rfl
  | cons a rest =>
    have h : (a :: rest).length ≤ rest.length + 11 := by
      simp
    unfold findTraceStart newestStartIndex
    simp only [List.length_cons]
    rw [scanBack_eq (a :: rest) rest.length (by simpa using h)]

theorem dropWhile_head_not {p : Char → Bool} :
    ∀ (l : List Char) (c : Char) (cs : List Char), l.dropWhile p = c :: cs → p c = false := by
  intro l
  induction l with
  | nil =>
    intro c cs h
    simp [List.dropWhile] at h
  | cons a t ih =>
    intro c cs h
    rw [List.dropWhile_cons] at h
    by_cases hp : p a
    · rw [if_pos (by simp [hp])] at h
      exact ih c cs h
    · rw [if_neg (by simp [hp])] at h
      injection h with h1 h2
      subst h1
      simpa using hp

theorem rdropSpace_head :
    ∀ (l : List Char) (c : Char) (cs : List Char),
      rdropSpace l = c :: cs → ∃ ds, l = c :: ds := by
  intro l
  cases l with
  | nil =>
    intro c cs h
    simp [rdropSpace] at h
  | cons a t =>
    intro c cs h
    unfold rdropSpace at h
    cases hr : rdropSpace t with
    | nil =>
      rw [hr] at h
      by_cases hsp : isSpaceChar a
      · simp [hsp] at h
      · simp [hsp] at h
        exact ⟨t, by rw [h.1]⟩
    | cons x xs =>
      rw [hr] at h
      injection h with h1 h2
      exact ⟨t, by rw [h1]⟩

theorem trimSpace_head_not_space (s : String) (c : Char) (cs : List Char)
    (h : (trimSpace s).data = c :: cs) : isSpaceChar c = false := by
  obtain ⟨ds, hd⟩ := rdropSpace_head _ c _ h
  exact dropWhile_head_not s.data c ds hd

theorem strHasPrefix_ws_false (t : String) (c : Char) (cs : List Char)
    (ht : t.data = c :: cs) (hc : isSpaceChar c = false)
    (m : String) (p : Char) (ps : List Char) (hm : m.data = p :: ps)
    (hp : isSpaceChar p = true) : strHasPrefix t m = false := by
  unfold strHasPrefix
  rw [ht, hm]
  have hne : ¬ (p = c) := by
    intro he
    subst he
    rw [hp] at hc
    exact absurd hc (by simp)
  simp [listHasPrefix, hne]

/-- C10: since the tailer trims surrounding whitespace before
classification, the whitespace-prefixed continuation markers can never
match a delivered line: on a trimmed line, isTraceContinuation holds
exactly when the line starts with one of the four non-whitespace markers
or is itself an error line. -/
theorem c10_trimmed_continuation_markers (s : String) :
    isTraceContinuation (trimSpace s) =
      (strHasPrefix (trimSpace s) "at " || strHasPrefix (trimSpace s) "File \"" ||
       strHasPrefix (trimSpace s) "^" || strHasPrefix (trimSpace s) "..." ||
       isErrorLine (trimSpace s)) := by
  cases ht : (trimSpace s).data with
  | nil =>
    have h0 : trimSpace s = "" := by
      apply String.ext
      rw [ht]
    rw [h0]
    decide
  | cons c cs =>
    have hc : isSpaceChar c = false := trimSpace_head_not_space s c cs ht
    have h1 : strHasPrefix (trimSpace s) "    at " = false :=
      strHasPrefix_ws_false _ c cs ht hc _ ' ' ("   at ").data rfl (by decide)
    have h2 : strHasPrefix (trimSpace s) "\tat " = false :=
      strHasPrefix_ws_false _ c cs ht hc _ '\t' ("at ").data rfl (by decide)
    have h3 : strHasPrefix (trimSpace s) "  File \"" = false :=
      strHasPrefix_ws_false _ c cs ht hc _ ' ' (" File \"").data rfl (by decide)
    have h4 : strHasPrefix (trimSpace s) "    " = false :=
      strHasPrefix_ws_false _ c cs ht hc _ ' ' ("   ").data rfl (by decide)
    have h5 : strHasPrefix (trimSpace s) "\t" = false :=
      strHasPrefix_ws_false _ c cs ht hc _ '\t' ("").data rfl (by decide)
    unfold isTraceContinuation
    simp only [traceContMarkers, List.any_cons, List.any_nil]
    rw [h1, h2, h3, h4, h5]
    cases strHasPrefix (trimSpace s) "at " <;>
      cases strHasPrefix (trimSpace s) "File \"" <;>
      cases strHasPrefix (trimSpace s) "^" <;>
      cases strHasPrefix (trimSpace s) "..." <;>
      simp

theorem emitTrace_events (w : WatcherState) (e : LogEvent) (he : e ∈ (emitTrace w).2) :
    e.context ≠ [] ∧ e.line = e.context.getLastD "" := by
  obtain ⟨buf, col, tl⟩ := w
  cases tl with
  | nil => simp [emitTrace] at he
  | cons c cs =>
    simp [emitTrace] at he
    subst he
    simp

theorem processLine_events (w : WatcherState) (line : String) (e : LogEvent)
    (he : e ∈ (processLine w line).2) :
    e.context ≠ [] ∧ e.line = e.context.getLastD "" := by
  obtain ⟨buf, col, tl⟩ := w
  unfold processLine at he
  cases col with
  | false =>
    by_cases herr : isErrorLine line <;> simp [herr] at he
  | true =>
    by_cases hcont : isTraceContinuation line
    · simp [hcont] at he
    · by_cases herr : isErrorLine line
      · simp [hcont, herr] at he
      · simp only [hcont, herr, Bool.false_eq_true, if_false, ite_false, Bool.not_false,
          if_true, ite_true] at he
        exact emitTrace_events _ _ he

theorem processRawLine_events (w : WatcherState) (raw : String) (e : LogEvent)
    (he : e ∈ (processRawLine w raw).2) :
    e.context ≠ [] ∧ e.line = e.context.getLastD "" := by
  unfold processRawLine at he
  by_cases hemp : trimSpace raw = ""
  · simp [hemp] at he
  · simp only [hemp, if_false, ite_false] at he
    exact processLine_events _ _ _ he

theorem runLines_events :
    ∀ (lines : List String) (w : WatcherState) (e : LogEvent),
      e ∈ (runLines w lines).2 → e.context ≠ [] ∧ e.line = e.context.getLastD "" := by
  intro lines
  induction lines with
  | nil =>
    intro w e he
    simp [runLines] at he
  | cons raw rest ih =>
    intro w e he
    simp only [runLines, List.mem_append] at he
    cases he with
    | inl h => exact processRawLine_events _ _ _ h
    | inr h => exact ih _ _ h

theorem flushTimeout_events (w : WatcherState) (e : LogEvent)
    (he : e ∈ (flushTimeout w).2) :
    e.context ≠ [] ∧ e.line = e.context.getLastD "" := by
  unfold flushTimeout at he
  by_cases hcol : w.collectingTrace
  · simp only [hcol, if_true, ite_true] at he
    exact emitTrace_events _ _ he
  · simp [hcol] at he

/-- C6: every incident emitted over any run has at least one context line,
and its errorLine is exactly the last context line. -/
theorem c6_errorLine_is_last_context (lines : List String) (e : LogEvent)
    (he : e ∈ (runWatcher lines).2) :
    e.context ≠ [] ∧ e.line = e.context.getLastD "" := by
  unfold runWatcher at he
  simp only [List.mem_append] at he
  cases he with
  | inl h => exact runLines_events _ _ _ h
  | inr h => exact flushTimeout_events _ _ h

/-- C6 witness: the incident emitted from a lone error line. -/
theorem c6_errorLine_is_last_context_witness :
    ({ line := "ZeroDivisionError: division by zero",
       context := ["ZeroDivisionError: division by zero"] } : LogEvent).context ≠ [] ∧
    ({ line := "ZeroDivisionError: division by zero",
       context := ["ZeroDivisionError: division by zero"] } : LogEvent).line =
      ({ line := "ZeroDivisionError: division by zero",
         context := ["ZeroDivisionError: division by zero"] } : LogEvent).context.getLastD "" :=
  c6_errorLine_is_last_context ["ZeroDivisionError: division by zero"]
    { line := "ZeroDivisionError: division by zero",
      context := ["ZeroDivisionError: division by zero"] } (by decide)

theorem emitTrace_fst_buffer (w : WatcherState) : (emitTrace w).1.lineBuffer = w.lineBuffer := by
  obtain ⟨buf, col, tl⟩ := w
  cases tl <;> rfl

theorem processLine_buffer (w : WatcherState) (line : String) :
    (processLine w line).1.lineBuffer = pushToBuffer w.lineBuffer line := by
  obtain ⟨buf, col, tl⟩ := w
  unfold processLine
  cases col with
  | false =>
    by_cases herr : isErrorLine line <;> simp [herr, startTrace]
  | true =>
    by_cases hcont : isTraceContinuation line
    · simp [hcont]
    · by_cases herr : isErrorLine line
      · simp [hcont, herr]
      · simp only [hcont, herr, Bool.false_eq_true, if_false, ite_false, Bool.not_false,
          if_true, ite_true]
        rw [emitTrace_fst_buffer]

theorem pushToBuffer_le (buf : List String) (l : String) (h : buf.length ≤ 50) :
    (pushToBuffer buf l).length ≤ 50 := by
  unfold pushToBuffer bufferSize
  by_cases h50 : 50 ≤ buf.length <;>
    simp [h50, List.length_append, List.length_drop] <;> omega

theorem runLines_buffer_le :
    ∀ (lines : List String) (w : WatcherState),
      w.lineBuffer.length ≤ 50 → (runLines w lines).1.lineBuffer.length ≤ 50 := by
  intro lines
  induction lines with
  | nil =>
    intro w h
    simpa [runLines] using h
  | cons raw rest ih =>
    intro w h
    simp only [runLines]
    apply ih
    unfold processRawLine
    by_cases hemp : trimSpace raw = ""
    · simpa [hemp] using h
    · simp only [hemp, if_false, ite_false]
      rw [processLine_buffer]
      exact pushToBuffer_le _ _ h

/-- C7: the rolling buffer holds at most 50 lines after any run from the
initial state (and hence in every reachable state, each being the final
state of the run over its prefix of the input; neither emitTrace nor
flushTimeout touches the buffer), and a push at exactly capacity 50 drops
only the oldest line and appends the new line at the tail, preserving the
order of the remaining lines. -/
theorem c7_buffer_capacity :
    (∀ lines : List String, (runWatcher lines).1.lineBuffer.length ≤ 50) ∧
    (∀ (buf : List String) (l : String), buf.length = 50 →
      pushToBuffer buf l = buf.tail ++ [l]) := by
  constructor
  · intro lines
    unfold runWatcher flushTimeout
    have hrun := runLines_buffer_le lines initialWatcher (by simp [initialWatcher])
    by_cases hcol : (runLines initialWatcher lines).1.collectingTrace <;>
      simp [hcol, emitTrace_fst_buffer, hrun]
  · intro buf l h
    unfold pushToBuffer bufferSize
    rw [if_pos (by omega), List.drop_one]

/-- C7 witness: a run stays within capacity, and a push at a concrete
50-line buffer evicts only the head. -/
theorem c7_buffer_capacity_witness :
    (runWatcher ["[INFO] Health check passed"]).1.lineBuffer.length ≤ 50 ∧
    pushToBuffer (List.replicate 50 "x") "y" = (List.replicate 50 "x").tail ++ ["y"] :=
  ⟨c7_buffer_capacity.1 ["[INFO] Health check passed"],
   c7_buffer_capacity.2 (List.replicate 50 "x") "y" (by decide)⟩

end Lacia
